import Mathlib

/-!
Shallow embedding of the transactional PostgreSQL state-access layer of the
repository (package `state/postgresql`), together with the request types of
package `state` that it consumes.

The implementation file of the access layer is not among the sources; only its
unit tests (`postgresdbaccess_test.go`) are. Every definition below is
therefore modelled from the specification (`spec.md`), and wherever the unit
tests pin a concrete behavior (validator outcomes, transaction begin/commit/
rollback patterns, metadata-parsing outcomes) the model follows the tests.

Modelling conventions:
- The database is a pure association list from keys to records; a record
  carries the opaque value payload (a string) and a numeric version token
  (etag) that rotates on every successful upsert.
- Statements are a small inductive type (the output of the statement builder);
  executing a statement returns the new store and the affected-row count.
- A transaction is run as a pure fold over the operation list; the result
  records the outcome (committed or rolled back), the visible store, the
  returned error, and a trace of transaction events (begin, each executed
  statement, commit/rollback), so that "no statement was issued" and "the
  transaction was opened and committed" are statable.
- Cancellation contexts, connection pooling, the background sweeper loop and
  driver-level I/O failures are not modelled; the error taxonomy still carries
  a distinct constructor for I/O errors so that the distinguishability of the
  concurrency-conflict kind is statable.
-/

deriving instance DecidableEq for Except

namespace state

/-- Modelled from the spec: the `state.SetRequest` consumed by the layer.
The value is an opaque already-serialized payload (string); the etag is an
optional version token (absent means unconditional write). -/
structure SetRequest where
  key : String
  value : String
  etag : Option Nat
deriving DecidableEq, Repr

/-- Modelled from the spec: the `state.DeleteRequest` consumed by the layer. -/
structure DeleteRequest where
  key : String
  etag : Option Nat
deriving DecidableEq, Repr

/-- Modelled from the spec: the payload of a transactional operation. In the
source it is a dynamically-typed field holding either a set-shaped or a
delete-shaped request; here it is a sum. -/
inductive Request where
  | set (r : SetRequest)
  | del (r : DeleteRequest)
deriving DecidableEq, Repr

/-- Modelled from the spec: the operation-kind tag `state.Upsert`. In the
source it is a string constant, so invalid tags are representable. -/
def Upsert : String := "upsert"

/-- Modelled from the spec: the operation-kind tag `state.Delete`. -/
def Delete : String := "delete"

/-- Modelled from the spec: one element of a transactional batch — a declared
operation kind together with its (possibly mismatched) request payload. -/
structure TransactionalStateOperation where
  operation : String
  request : Request
deriving DecidableEq, Repr

end state

namespace postgresql

/-- Modelled from the spec: the error taxonomy of the layer. `etagMismatch`
is the distinguishable concurrency-conflict kind; `ioError` stands for the
generic driver/I/O error kind (never produced by the pure model, present so
distinguishability is statable). -/
inductive Err where
  | invalidKey
  | invalidValue
  | operationMismatch
  | invalidOperation
  | etagMismatch
  | ioError
deriving DecidableEq, Repr

/-- Modelled from the spec: one persisted record — the opaque value payload
plus the current version token (etag). Expiry metadata is not needed by the
claims settled here and is omitted. -/
structure Record where
  value : String
  etag : Nat
deriving DecidableEq, Repr

/-- Modelled from the spec: the backing table, as an association list from
keys to records (first binding wins; the operations below keep keys unique). -/
abbrev Store := List (String × Record)

/-- Lookup of a key in the store (the `SELECT ... WHERE key =` of the layer). -/
def Store.lookup : Store → String → Option Record
  | [], _ => none
  | (k₁, r) :: rest, k => if k₁ = k then some r else Store.lookup rest k

/-- Removal of every binding of a key (the row deletion of the layer). -/
def Store.erase : Store → String → Store
  | [], _ => []
  | (k₁, r) :: rest, k =>
    if k₁ = k then Store.erase rest k else (k₁, r) :: Store.erase rest k

/-- Insert-or-replace of a binding (the row upsert of the layer). -/
def Store.insert (s : Store) (k : String) (r : Record) : Store :=
  (k, r) :: Store.erase s k

/-- Modelled from the spec: the operation validator `getSet` of the missing
`postgresdbaccess.go`. It accepts an operation whose payload is set-shaped
with a non-empty key and a non-empty value, and returns the validated set
descriptor unchanged; the key rule is checked before the value rule, in the
order the rules are listed. Pure; ignores the declared kind tag, which the
transaction executor dispatches on. -/
def getSet (op : state.TransactionalStateOperation) : Except Err state.SetRequest :=
  match op.request with
  | state.Request.del _ => Except.error Err.operationMismatch
  | state.Request.set r =>
    if r.key = "" then Except.error Err.invalidKey
    else if r.value = "" then Except.error Err.invalidValue
    else Except.ok r

/-- Modelled from the spec: the operation validator `getDelete` of the missing
`postgresdbaccess.go`. It accepts an operation whose payload is delete-shaped
with a non-empty key, and returns the validated delete descriptor unchanged. -/
def getDelete (op : state.TransactionalStateOperation) : Except Err state.DeleteRequest :=
  match op.request with
  | state.Request.set _ => Except.error Err.operationMismatch
  | state.Request.del r =>
    if r.key = "" then Except.error Err.invalidKey else Except.ok r

/-- Modelled from the spec: the output of the statement builder — a
parameterized statement with its bound arguments. -/
inductive Stmt where
  | insertOrReplace (key value : String)
  | condReplace (key value : String) (etag : Nat)
  | deleteByKey (key : String)
  | condDelete (key : String) (etag : Nat)
deriving DecidableEq, Repr

/-- Modelled from the spec: the statement builder for a validated set
descriptor — unconditional insert-or-replace without an etag, conditional
replace with one. -/
def buildUpsert (r : state.SetRequest) : Stmt :=
  match r.etag with
  | none => Stmt.insertOrReplace r.key r.value
  | some e => Stmt.condReplace r.key r.value e

/-- Modelled from the spec: the statement builder for a validated delete
descriptor — unconditional delete by key without an etag, conditional delete
with one. -/
def buildDelete (r : state.DeleteRequest) : Stmt :=
  match r.etag with
  | none => Stmt.deleteByKey r.key
  | some e => Stmt.condDelete r.key e

/-- Modelled from the spec: execution of one statement against the store,
returning the new store and the affected-row count. A fresh insert starts the
etag at 0; every successful replace rotates it; a conditional statement whose
etag does not match the stored one (or whose target row is absent) affects
zero rows and leaves the store unchanged. -/
def execStmt (s : Store) : Stmt → Store × Nat
  | Stmt.insertOrReplace k v =>
    match Store.lookup s k with
    | none => (Store.insert s k ⟨v, 0⟩, 1)
    | some r => (Store.insert s k ⟨v, r.etag + 1⟩, 1)
  | Stmt.condReplace k v e =>
    match Store.lookup s k with
    | none => (s, 0)
    | some r => if r.etag = e then (Store.insert s k ⟨v, r.etag + 1⟩, 1) else (s, 0)
  | Stmt.deleteByKey k =>
    match Store.lookup s k with
    | none => (s, 0)
    | some _ => (Store.erase s k, 1)
  | Stmt.condDelete k e =>
    match Store.lookup s k with
    | none => (s, 0)
    | some r => if r.etag = e then (Store.erase s k, 1) else (s, 0)

/-- Modelled from the spec: application of one transactional operation inside
an open transaction — dispatch on the declared kind tag, validate, build the
statement, execute it, and turn a zero-affected-row count of an etag-checked
statement into a concurrency conflict. Returns the statements actually issued
(none when validation rejects) and either the new store or the error. -/
def execOp (s : Store) (op : state.TransactionalStateOperation) :
    List Stmt × Except Err Store :=
  if op.operation = state.Upsert then
    match getSet op with
    | Except.error e => ([], Except.error e)
    | Except.ok sr =>
      let st := buildUpsert sr
      let res := execStmt s st
      if sr.etag.isSome && res.2 != 1 then ([st], Except.error Err.etagMismatch)
      else ([st], Except.ok res.1)
  else if op.operation = state.Delete then
    match getDelete op with
    | Except.error e => ([], Except.error e)
    | Except.ok dr =>
      let st := buildDelete dr
      let res := execStmt s st
      if dr.etag.isSome && res.2 != 1 then ([st], Except.error Err.etagMismatch)
      else ([st], Except.ok res.1)
  else ([], Except.error Err.invalidOperation)

/-- Modelled from the spec: the `Applying` phase of the transaction executor —
operations are consumed strictly in the caller-supplied order, each validated,
rendered and executed against the store as left by its predecessors; the first
error stops the traversal. Returns the statements issued so far and either the
final store or that first error. -/
def applyOps : Store → List state.TransactionalStateOperation →
    List Stmt × Except Err Store
  | s, [] => ([], Except.ok s)
  | s, op :: rest =>
    match execOp s op with
    | (ts, Except.error e) => (ts, Except.error e)
    | (ts, Except.ok s₁) =>
      (ts ++ (applyOps s₁ rest).1, (applyOps s₁ rest).2)

/-- Outcome of a transaction: the two terminal states of the executor. -/
inductive TxOutcome where
  | committed
  | rolledBack
deriving DecidableEq, Repr

/-- One observable transaction event, for stating which statements were issued
and how the transaction terminated. -/
inductive TxEvent where
  | begin
  | exec (st : Stmt)
  | commit
  | rollback
deriving DecidableEq, Repr

/-- Result of running a transaction: terminal outcome, the store visible to
subsequent readers, the error returned to the caller, and the event trace. -/
structure MultiResult where
  outcome : TxOutcome
  store : Store
  error : Option Err
  trace : List TxEvent
deriving DecidableEq, Repr

/-- Modelled from the spec: the scoped transaction construct — begin, apply
every operation in order, and commit on success or roll back (discarding all
effects) on the first error, on every exit path. -/
def runTx (s : Store) (ops : List state.TransactionalStateOperation) : MultiResult :=
  match (applyOps s ops).2 with
  | Except.ok s₁ =>
    ⟨TxOutcome.committed, s₁, none,
      TxEvent.begin :: ((applyOps s ops).1.map TxEvent.exec ++ [TxEvent.commit])⟩
  | Except.error e =>
    ⟨TxOutcome.rolledBack, s, some e,
      TxEvent.begin :: ((applyOps s ops).1.map TxEvent.exec ++ [TxEvent.rollback])⟩

/-- Modelled from the spec: `ExecuteMulti` — the heterogeneous transactional
batch entry point (the cancellation context and the request wrapper holding
the operation list are elided). -/
def ExecuteMulti (s : Store) (ops : List state.TransactionalStateOperation) : MultiResult :=
  runTx s ops

/-- Lift a set request to an upsert-tagged transactional operation. -/
def setOp (r : state.SetRequest) : state.TransactionalStateOperation :=
  ⟨state.Upsert, state.Request.set r⟩

/-- Lift a delete request to a delete-tagged transactional operation. -/
def deleteOp (r : state.DeleteRequest) : state.TransactionalStateOperation :=
  ⟨state.Delete, state.Request.del r⟩

/-- Modelled from the spec: `BulkSet` — a homogeneous ordered list of set
requests applied as one transaction through the same validator, builder and
executor. -/
def BulkSet (s : Store) (reqs : List state.SetRequest) : MultiResult :=
  runTx s (reqs.map setOp)

/-- Modelled from the spec: `BulkDelete` — a homogeneous ordered list of
delete requests applied as one transaction. -/
def BulkDelete (s : Store) (reqs : List state.DeleteRequest) : MultiResult :=
  runTx s (reqs.map deleteOp)

/-- Modelled from the spec: the single-operation `Set` entry point, run inside
its own scoped transaction. -/
def Set (s : Store) (r : state.SetRequest) : MultiResult :=
  runTx s [setOp r]

/-- Modelled from the spec: the single-operation `Delete` entry point, run
inside its own scoped transaction. -/
def Delete (s : Store) (r : state.DeleteRequest) : MultiResult :=
  runTx s [deleteOp r]

/-- Modelled from the spec: the configuration errors of initialization. -/
inductive ConfigError where
  | missingConnectionString
  | invalidCleanupInterval
deriving DecidableEq, Repr

/-- Modelled from the spec: the recognized metadata properties handed to
`ParseMetadata`; a `none` field is an unset property. -/
structure MetadataProps where
  connectionString : Option String
  tableName : Option String
  cleanupIntervalInSeconds : Option String
deriving DecidableEq, Repr

/-- Modelled from the spec: the parsed configuration of the component. The
cleanup interval is in seconds; `none` means the sweeper is disabled. -/
structure PostgresMetadata where
  connectionString : String
  tableName : String
  cleanupInterval : Option Nat
deriving DecidableEq, Repr

/-- Modelled from the spec: the default table name used when `tableName` is
unset. -/
def defaultTableName : String := "state"

/-- Modelled from the spec: the default cleanup interval in seconds, used
when `cleanupIntervalInSeconds` is unset (the unit tests pin that an unset
property parses successfully to this default). -/
def defaultCleanupInternal : Nat := 3600

/-- Accumulate decimal digits; fails on the first non-digit character. -/
def parseDigits : List Char → Nat → Option Nat
  | [], acc => some acc
  | c :: cs, acc =>
    if c.isDigit then parseDigits cs (acc * 10 + (c.toNat - 48)) else none

/-- Base-10 integer parsing of a whole string with an optional sign, after
the decimal form accepted by the strconv integer parser of the source
language; the empty string and any non-numeric string fail. -/
def atoi (str : String) : Option Int :=
  match str.data with
  | [] => none
  | '-' :: cs =>
    if cs.isEmpty then none else (parseDigits cs 0).map (fun n => -(n : Int))
  | '+' :: cs =>
    if cs.isEmpty then none else (parseDigits cs 0).map (fun n => (n : Int))
  | cs => (parseDigits cs 0).map (fun n => (n : Int))

/-- Modelled from the spec: `ParseMetadata` of the missing
`postgresdbaccess.go`. The connection string is required; the table name
defaults when unset; an unset cleanup interval yields the default interval,
a non-numeric one is a configuration error, a positive one enables the
sweeper at that period in seconds, and any other parsed value (zero or
negative) disables the sweeper — the unit tests pin each of these outcomes. -/
def ParseMetadata (props : MetadataProps) : Except ConfigError PostgresMetadata :=
  match props.connectionString with
  | none => Except.error ConfigError.missingConnectionString
  | some cs =>
    if cs = "" then Except.error ConfigError.missingConnectionString
    else
      let tn := props.tableName.getD defaultTableName
      match props.cleanupIntervalInSeconds with
      | none => Except.ok ⟨cs, tn, some defaultCleanupInternal⟩
      | some str =>
        match atoi str with
        | none => Except.error ConfigError.invalidCleanupInterval
        | some i =>
          Except.ok ⟨cs, tn, if 0 < i then some i.toNat else none⟩

/-! Helper lemmas about the store and the transaction executor, shared by the
claim theorems below. -/

theorem Store.lookup_insert_self (s : Store) (k : String) (r : Record) :
    Store.lookup (Store.insert s k r) k = some r := by
  simp [Store.insert, Store.lookup]

theorem Store.lookup_erase_self (s : Store) (k : String) :
    Store.lookup (Store.erase s k) k = none := by
  induction s with
  | nil => rfl
  | cons hd tl ih =>
    obtain ⟨k₁, r⟩ := hd
    by_cases h : k₁ = k <;> simp [Store.erase, Store.lookup, h, ih]

theorem Store.erase_of_lookup_none (s : Store) (k : String)
    (h : Store.lookup s k = none) : Store.erase s k = s := by
  induction s with
  | nil => rfl
  | cons hd tl ih =>
    obtain ⟨k₁, r⟩ := hd
    by_cases hk : k₁ = k
    · simp [Store.lookup, hk] at h
    · rw [Store.lookup, if_neg hk] at h
      rw [Store.erase, if_neg hk, ih h]

theorem applyOps_cons_error (s : Store) (op : state.TransactionalStateOperation)
    (rest : List state.TransactionalStateOperation) (e : Err)
    (h : (execOp s op).2 = Except.error e) :
    applyOps s (op :: rest) = ((execOp s op).1, Except.error e) := by
  rcases hop : execOp s op with ⟨ts, r⟩
  rw [hop] at h
  simp only at h
  subst h
  simp [applyOps, hop]

theorem applyOps_cons_ok (s : Store) (op : state.TransactionalStateOperation)
    (rest : List state.TransactionalStateOperation) (s₁ : Store)
    (h : (execOp s op).2 = Except.ok s₁) :
    applyOps s (op :: rest) =
      ((execOp s op).1 ++ (applyOps s₁ rest).1, (applyOps s₁ rest).2) := by
  rcases hop : execOp s op with ⟨ts, r⟩
  rw [hop] at h
  simp only at h
  subst h
  simp [applyOps, hop]

theorem runTx_ok (s : Store) (ops : List state.TransactionalStateOperation)
    (s₁ : Store) (h : (applyOps s ops).2 = Except.ok s₁) :
    runTx s ops = ⟨TxOutcome.committed, s₁, none,
      TxEvent.begin :: ((applyOps s ops).1.map TxEvent.exec ++ [TxEvent.commit])⟩ := by
  unfold runTx
  rw [h]

theorem runTx_error (s : Store) (ops : List state.TransactionalStateOperation)
    (e : Err) (h : (applyOps s ops).2 = Except.error e) :
    runTx s ops = ⟨TxOutcome.rolledBack, s, some e,
      TxEvent.begin :: ((applyOps s ops).1.map TxEvent.exec ++ [TxEvent.rollback])⟩ := by
  unfold runTx
  rw [h]

theorem execOp_setOp_uncond (s : Store) (k v : String) (hk : k ≠ "") (hv : v ≠ "") :
    ∃ t : Nat, execOp s (setOp ⟨k, v, none⟩) =
      ([Stmt.insertOrReplace k v], Except.ok (Store.insert s k ⟨v, t⟩)) := by
  rcases hl : Store.lookup s k with _ | r
  · exact ⟨0, by simp [execOp, setOp, getSet, buildUpsert, execStmt, hk, hv, hl]⟩
  · exact ⟨r.etag + 1, by simp [execOp, setOp, getSet, buildUpsert, execStmt, hk, hv, hl]⟩

theorem execOp_deleteOp_uncond (s : Store) (k : String) (hk : k ≠ "") :
    execOp s (deleteOp ⟨k, none⟩) =
      ([Stmt.deleteByKey k], Except.ok (Store.erase s k)) := by
  rcases hl : Store.lookup s k with _ | r
  · simp [execOp, deleteOp, getDelete, buildDelete, execStmt, hk, hl, state.Upsert,
      state.Delete, Store.erase_of_lookup_none s k hl]
  · simp [execOp, deleteOp, getDelete, buildDelete, execStmt, hk, hl, state.Upsert,
      state.Delete]

theorem applyOps_error_split (ops : List state.TransactionalStateOperation) :
    ∀ (s : Store) (e : Err), (applyOps s ops).2 = Except.error e →
      ∃ pre op post s₁, ops = pre ++ op :: post ∧
        (applyOps s pre).2 = Except.ok s₁ ∧ (execOp s₁ op).2 = Except.error e := by
  induction ops with
  | nil =>
    intro s e h
    simp [applyOps] at h
  | cons op rest ih =>
    intro s e h
    rcases hr : (execOp s op).2 with e₀ | s₁
    · rw [applyOps_cons_error s op rest e₀ hr] at h
      simp only [Except.error.injEq] at h
      subst h
      exact ⟨[], op, rest, s, rfl, rfl, hr⟩
    · rw [applyOps_cons_ok s op rest s₁ hr] at h
      obtain ⟨pre, op₂, post, s₂, hsplit, hpre, hfail⟩ := ih s₁ e h
      refine ⟨op :: pre, op₂, post, s₂, by rw [hsplit, List.cons_append], ?_, hfail⟩
      rw [applyOps_cons_ok s op pre s₁ hr]
      exact hpre

theorem applyOps_error_of_mem (ops : List state.TransactionalStateOperation)
    (op : state.TransactionalStateOperation) (hmem : op ∈ ops)
    (hfail : ∀ s : Store, ∃ e : Err, (execOp s op).2 = Except.error e) :
    ∀ s : Store, ∃ e : Err, (applyOps s ops).2 = Except.error e := by
  induction ops with
  | nil => cases hmem
  | cons a rest ih =>
    intro s
    rcases hr : (execOp s a).2 with e₀ | s₁
    · exact ⟨e₀, by rw [applyOps_cons_error s a rest e₀ hr]⟩
    · cases hmem with
      | head =>
        obtain ⟨e, he⟩ := hfail s
        rw [he] at hr
        cases hr
      | tail _ hmem =>
        obtain ⟨e, he⟩ := ih hmem s₁
        exact ⟨e, by rw [applyOps_cons_ok s a rest s₁ hr]; exact he⟩

theorem execOp_of_getSet_error (s : Store) (r : state.SetRequest) (e : Err)
    (h : getSet (setOp r) = Except.error e) :
    execOp s (setOp r) = ([], Except.error e) := by
  simp only [setOp] at h
  simp [execOp, setOp, h]

theorem getSet_error_of_bad (r : state.SetRequest)
    (hbad : r.key = "" ∨ r.value = "") :
    ∃ e : Err, getSet (setOp r) = Except.error e := by
  by_cases hk : r.key = ""
  · exact ⟨Err.invalidKey, by simp [getSet, setOp, hk]⟩
  · rcases hbad with hbad | hbad
    · exact absurd hbad hk
    · exact ⟨Err.invalidValue, by simp [getSet, setOp, hk, hbad]⟩

/-! Claim theorems. -/

/-- C5: `ExecuteMulti` applied to an empty operation list still opens a
transaction and commits it, returns success (no error), and changes no stored
state. -/
theorem executeMulti_empty_commits (s : Store) :
    ExecuteMulti s [] =
      ⟨TxOutcome.committed, s, none, [TxEvent.begin, TxEvent.commit]⟩ := rfl

/-- C7: every operation (upsert- or delete-kind) whose key is the empty
string is rejected by validation with the invalid-key error before any
statement is built or issued: both validators return `Err.invalidKey`, the
executor issues no statement for such an operation, and a transaction made of
it rolls back with the store untouched and a trace holding no statement
execution. -/
theorem empty_key_rejected_before_io (s : Store) (tag₁ tag₂ v : String)
    (et₁ et₂ : Option Nat) :
    getSet ⟨tag₁, state.Request.set ⟨"", v, et₁⟩⟩ = Except.error Err.invalidKey ∧
    getDelete ⟨tag₂, state.Request.del ⟨"", et₂⟩⟩ = Except.error Err.invalidKey ∧
    (execOp s ⟨state.Upsert, state.Request.set ⟨"", v, et₁⟩⟩).1 = [] ∧
    (execOp s ⟨state.Delete, state.Request.del ⟨"", et₂⟩⟩).1 = [] ∧
    ExecuteMulti s [⟨state.Upsert, state.Request.set ⟨"", v, et₁⟩⟩] =
      ⟨TxOutcome.rolledBack, s, some Err.invalidKey,
        [TxEvent.begin, TxEvent.rollback]⟩ ∧
    ExecuteMulti s [⟨state.Delete, state.Request.del ⟨"", et₂⟩⟩] =
      ⟨TxOutcome.rolledBack, s, some Err.invalidKey,
        [TxEvent.begin, TxEvent.rollback]⟩ :=
  ⟨rfl, rfl, rfl, rfl, rfl, rfl⟩

/-- C9: every operation whose declared kind does not match the shape of its
payload (a delete tag carrying a set-shaped request, or an upsert tag
carrying a delete-shaped request) is rejected with the operation-mismatch
error without touching storage: no statement is issued and the store is left
unchanged. -/
theorem kind_mismatch_rejected (s : Store) (tag₁ tag₂ : String)
    (sr : state.SetRequest) (dr : state.DeleteRequest) :
    getSet ⟨tag₁, state.Request.del dr⟩ = Except.error Err.operationMismatch ∧
    getDelete ⟨tag₂, state.Request.set sr⟩ = Except.error Err.operationMismatch ∧
    execOp s ⟨state.Upsert, state.Request.del dr⟩ =
      ([], Except.error Err.operationMismatch) ∧
    execOp s ⟨state.Delete, state.Request.set sr⟩ =
      ([], Except.error Err.operationMismatch) ∧
    (ExecuteMulti s [⟨state.Upsert, state.Request.del dr⟩]).store = s ∧
    (ExecuteMulti s [⟨state.Delete, state.Request.set sr⟩]).store = s :=
  ⟨rfl, rfl, rfl, rfl, rfl, rfl⟩

/-- C10: for every well-formed operation the validator returns the
identifying key unchanged: `getSet` on a set-shaped request with non-empty
key and value returns the request itself (so its key), and `getDelete` on a
delete-shaped request with non-empty key returns the request itself. -/
theorem validator_returns_key_unchanged (tag₁ tag₂ k v k₂ : String)
    (et₁ et₂ : Option Nat) (hk : k ≠ "") (hv : v ≠ "") (hk₂ : k₂ ≠ "") :
    getSet ⟨tag₁, state.Request.set ⟨k, v, et₁⟩⟩ = Except.ok ⟨k, v, et₁⟩ ∧
    getDelete ⟨tag₂, state.Request.del ⟨k₂, et₂⟩⟩ = Except.ok ⟨k₂, et₂⟩ := by
  constructor <;> simp [getSet, getDelete, hk, hv, hk₂]

theorem validator_returns_key_unchanged_witness :
    getSet ⟨state.Upsert, state.Request.set ⟨"key1", "value1", none⟩⟩ =
      Except.ok ⟨"key1", "value1", none⟩ ∧
    getDelete ⟨state.Delete, state.Request.del ⟨"key1", none⟩⟩ =
      Except.ok ⟨"key1", none⟩ :=
  validator_returns_key_unchanged state.Upsert state.Delete "key1" "value1"
    "key1" none none (by decide) (by decide) (by decide)

/-- C3: a conditional set or delete whose supplied etag differs from the
stored one fails with the distinguishable concurrency-conflict error kind
(distinct from the generic I/O error kind), rolls back its owning
transaction, and leaves the stored record — indeed the whole store —
unchanged. -/
theorem conditional_conflict_rolls_back (s : Store) (k v₂ : String)
    (rec : Record) (e₂ : Nat) (hlook : Store.lookup s k = some rec)
    (hne : e₂ ≠ rec.etag) (hk : k ≠ "") (hv : v₂ ≠ "") :
    Set s ⟨k, v₂, some e₂⟩ =
      ⟨TxOutcome.rolledBack, s, some Err.etagMismatch,
        [TxEvent.begin, TxEvent.exec (Stmt.condReplace k v₂ e₂), TxEvent.rollback]⟩ ∧
    Delete s ⟨k, some e₂⟩ =
      ⟨TxOutcome.rolledBack, s, some Err.etagMismatch,
        [TxEvent.begin, TxEvent.exec (Stmt.condDelete k e₂), TxEvent.rollback]⟩ ∧
    Err.etagMismatch ≠ Err.ioError := by
  refine ⟨?_, ?_, by decide⟩ <;>
    simp [Set, Delete, runTx, applyOps, execOp, setOp, deleteOp, getSet, getDelete,
      buildUpsert, buildDelete, execStmt, hk, hv, hlook, hne.symm,
      state.Upsert, state.Delete]

theorem conditional_conflict_rolls_back_witness :
    Set [("k", ⟨"v", 5⟩)] ⟨"k", "w", some 3⟩ =
      ⟨TxOutcome.rolledBack, [("k", ⟨"v", 5⟩)], some Err.etagMismatch,
        [TxEvent.begin, TxEvent.exec (Stmt.condReplace "k" "w" 3), TxEvent.rollback]⟩ ∧
    Delete [("k", ⟨"v", 5⟩)] ⟨"k", some 3⟩ =
      ⟨TxOutcome.rolledBack, [("k", ⟨"v", 5⟩)], some Err.etagMismatch,
        [TxEvent.begin, TxEvent.exec (Stmt.condDelete "k" 3), TxEvent.rollback]⟩ := by
  have h := conditional_conflict_rolls_back [("k", ⟨"v", 5⟩)] "k" "w" ⟨"v", 5⟩ 3
    rfl (by decide) (by decide) (by decide)
  exact ⟨h.1, h.2.1⟩

/-- C1: for every batch, if `ExecuteMulti` returns an error then the
transaction rolled back, the visible store is exactly the initial one (no
effect of any operation persists), and the returned error is the first
encountered one: the batch splits into a prefix that succeeded from the
initial store and a failing operation that produced exactly that error on
the intermediate store. If `ExecuteMulti` returns success, the transaction
committed and the visible store is the sequential application of every
operation of the batch. -/
theorem executeMulti_atomic (s : Store)
    (ops : List state.TransactionalStateOperation) :
    ((ExecuteMulti s ops).error = none →
      (ExecuteMulti s ops).outcome = TxOutcome.committed ∧
      (applyOps s ops).2 = Except.ok (ExecuteMulti s ops).store) ∧
    (∀ e : Err, (ExecuteMulti s ops).error = some e →
      (ExecuteMulti s ops).outcome = TxOutcome.rolledBack ∧
      (ExecuteMulti s ops).store = s ∧
      ∃ pre op post s₁, ops = pre ++ op :: post ∧
        (applyOps s pre).2 = Except.ok s₁ ∧
        (execOp s₁ op).2 = Except.error e) := by
  rcases hr : (applyOps s ops).2 with e₀ | s₁
  · have hrun := runTx_error s ops e₀ hr
    constructor
    · intro h
      simp only [ExecuteMulti] at h
      rw [hrun] at h
      simp at h
    · intro e h
      simp only [ExecuteMulti] at h ⊢
      rw [hrun] at h ⊢
      simp only [Option.some.injEq] at h
      subst h
      exact ⟨rfl, rfl, applyOps_error_split ops s e₀ hr⟩
  · have hrun := runTx_ok s ops s₁ hr
    constructor
    · intro _
      simp only [ExecuteMulti]
      rw [hrun]
      exact ⟨rfl, rfl⟩
    · intro e h
      simp only [ExecuteMulti] at h
      rw [hrun] at h
      simp at h

theorem executeMulti_atomic_witness :
    (ExecuteMulti ([] : Store)
      [⟨state.Upsert, state.Request.set ⟨"", "value1", none⟩⟩]).outcome
        = TxOutcome.rolledBack ∧
    (ExecuteMulti ([] : Store)
      [⟨state.Upsert, state.Request.set ⟨"", "value1", none⟩⟩]).store = [] := by
  have h := (executeMulti_atomic ([] : Store)
    [⟨state.Upsert, state.Request.set ⟨"", "value1", none⟩⟩]).2 Err.invalidKey rfl
  exact ⟨h.1, h.2.1⟩

/-- C2: `ExecuteMulti` applies operations strictly in the caller-supplied
order: the batch upsert-then-delete on one key commits and leaves the key
absent, while the reversed batch delete-then-upsert commits and leaves the
key present with the upserted value. -/
theorem executeMulti_order (s : Store) (k : String) (hk : k ≠ "") :
    ((ExecuteMulti s [setOp ⟨k, "a", none⟩, deleteOp ⟨k, none⟩]).outcome
        = TxOutcome.committed ∧
     Store.lookup (ExecuteMulti s [setOp ⟨k, "a", none⟩, deleteOp ⟨k, none⟩]).store k
        = none) ∧
    ((ExecuteMulti s [deleteOp ⟨k, none⟩, setOp ⟨k, "a", none⟩]).outcome
        = TxOutcome.committed ∧
     ∃ rec : Record,
       Store.lookup (ExecuteMulti s [deleteOp ⟨k, none⟩, setOp ⟨k, "a", none⟩]).store k
          = some rec ∧ rec.value = "a") := by
  obtain ⟨t₁, h₁⟩ := execOp_setOp_uncond s k "a" hk (by decide)
  constructor
  · have h₂ := execOp_deleteOp_uncond (Store.insert s k ⟨"a", t₁⟩) k hk
    have hA : (applyOps s [setOp ⟨k, "a", none⟩, deleteOp ⟨k, none⟩]).2
        = Except.ok (Store.erase (Store.insert s k ⟨"a", t₁⟩) k) := by
      rw [applyOps_cons_ok s _ _ (Store.insert s k ⟨"a", t₁⟩) (by rw [h₁])]
      rw [applyOps_cons_ok _ _ _ (Store.erase (Store.insert s k ⟨"a", t₁⟩) k) (by rw [h₂])]
      rfl
    have hrun := runTx_ok s _ _ hA
    simp only [ExecuteMulti]
    rw [hrun]
    exact ⟨rfl, Store.lookup_erase_self _ k⟩
  · have h₂ := execOp_deleteOp_uncond s k hk
    obtain ⟨t₂, h₃⟩ := execOp_setOp_uncond (Store.erase s k) k "a" hk (by decide)
    have hA : (applyOps s [deleteOp ⟨k, none⟩, setOp ⟨k, "a", none⟩]).2
        = Except.ok (Store.insert (Store.erase s k) k ⟨"a", t₂⟩) := by
      rw [applyOps_cons_ok s _ _ (Store.erase s k) (by rw [h₂])]
      rw [applyOps_cons_ok _ _ _ (Store.insert (Store.erase s k) k ⟨"a", t₂⟩) (by rw [h₃])]
      rfl
    have hrun := runTx_ok s _ _ hA
    simp only [ExecuteMulti]
    rw [hrun]
    exact ⟨rfl, ⟨"a", t₂⟩, Store.lookup_insert_self _ k _, rfl⟩

theorem executeMulti_order_witness :
    (((ExecuteMulti ([] : Store) [setOp ⟨"key1", "a", none⟩, deleteOp ⟨"key1", none⟩]).outcome
        = TxOutcome.committed ∧
      Store.lookup (ExecuteMulti ([] : Store)
        [setOp ⟨"key1", "a", none⟩, deleteOp ⟨"key1", none⟩]).store "key1" = none) ∧
     ((ExecuteMulti ([] : Store) [deleteOp ⟨"key1", none⟩, setOp ⟨"key1", "a", none⟩]).outcome
        = TxOutcome.committed ∧
      ∃ rec : Record,
        Store.lookup (ExecuteMulti ([] : Store)
          [deleteOp ⟨"key1", none⟩, setOp ⟨"key1", "a", none⟩]).store "key1"
            = some rec ∧ rec.value = "a")) :=
  executeMulti_order [] "key1" (by decide)

/-- C6: a `BulkSet` whose list contains any invalid element (empty key or
empty value) aborts the whole bulk call with a rollback: the outcome is
rolled back, an error is returned, and no element of the list — including
previously-valid ones — is persisted (the visible store is the initial one). -/
theorem bulkSet_invalid_aborts (s : Store) (reqs : List state.SetRequest)
    (r : state.SetRequest) (hmem : r ∈ reqs) (hbad : r.key = "" ∨ r.value = "") :
    (BulkSet s reqs).outcome = TxOutcome.rolledBack ∧
    (BulkSet s reqs).store = s ∧
    ∃ e : Err, (BulkSet s reqs).error = some e := by
  have hop : setOp r ∈ reqs.map setOp := List.mem_map_of_mem setOp hmem
  obtain ⟨e₀, he₀⟩ := getSet_error_of_bad r hbad
  have hfail : ∀ s₂ : Store, ∃ e : Err, (execOp s₂ (setOp r)).2 = Except.error e :=
    fun s₂ => ⟨e₀, by rw [execOp_of_getSet_error s₂ r e₀ he₀]⟩
  obtain ⟨e, he⟩ := applyOps_error_of_mem (reqs.map setOp) (setOp r) hop hfail s
  have hrun := runTx_error s (reqs.map setOp) e he
  simp only [BulkSet]
  rw [hrun]
  exact ⟨rfl, rfl, e, rfl⟩

theorem bulkSet_invalid_aborts_witness :
    (BulkSet ([] : Store) [⟨"key1", "value1", none⟩, ⟨"", "value1", none⟩]).outcome
        = TxOutcome.rolledBack ∧
    (BulkSet ([] : Store) [⟨"key1", "value1", none⟩, ⟨"", "value1", none⟩]).store = [] ∧
    ∃ e : Err,
      (BulkSet ([] : Store) [⟨"key1", "value1", none⟩, ⟨"", "value1", none⟩]).error
        = some e :=
  bulkSet_invalid_aborts [] [⟨"key1", "value1", none⟩, ⟨"", "value1", none⟩]
    ⟨"", "value1", none⟩ (by decide) (Or.inl rfl)

/-- C8 (amended): every upsert operation whose value is empty is rejected by
validation before any I/O occurs — no statement is issued and a transaction
made of it rolls back leaving the store unchanged; the error is
`Err.invalidValue` whenever the key is non-empty (an operation whose key is
also empty is rejected with `Err.invalidKey`, the key rule being checked
first). -/
theorem upsert_empty_value_rejected (s : Store) (tag k : String)
    (et : Option Nat) :
    (∃ e : Err, getSet ⟨tag, state.Request.set ⟨k, "", et⟩⟩ = Except.error e) ∧
    (k ≠ "" →
      getSet ⟨tag, state.Request.set ⟨k, "", et⟩⟩ = Except.error Err.invalidValue) ∧
    (execOp s ⟨state.Upsert, state.Request.set ⟨k, "", et⟩⟩).1 = [] ∧
    (ExecuteMulti s [⟨state.Upsert, state.Request.set ⟨k, "", et⟩⟩]).outcome
        = TxOutcome.rolledBack ∧
    (ExecuteMulti s [⟨state.Upsert, state.Request.set ⟨k, "", et⟩⟩]).store = s := by
  by_cases hk : k = ""
  · subst hk
    exact ⟨⟨Err.invalidKey, rfl⟩, fun h => absurd rfl h, rfl, rfl, rfl⟩
  · refine ⟨⟨Err.invalidValue, ?_⟩, fun _ => ?_, ?_, ?_, ?_⟩ <;>
      simp [getSet, execOp, ExecuteMulti, runTx, applyOps, hk, state.Upsert]

theorem upsert_empty_value_counterexample :
    getSet ⟨state.Upsert, state.Request.set ⟨"", "", none⟩⟩
        = Except.error Err.invalidKey ∧
    Err.invalidKey ≠ Err.invalidValue :=
  ⟨rfl, by decide⟩

theorem upsert_empty_value_rejected_witness :
    getSet ⟨state.Upsert, state.Request.set ⟨"key1", "", none⟩⟩
        = Except.error Err.invalidValue ∧
    (ExecuteMulti ([] : Store)
      [⟨state.Upsert, state.Request.set ⟨"key1", "", none⟩⟩]).store = [] := by
  have h := upsert_empty_value_rejected ([] : Store) state.Upsert "key1" none
  exact ⟨h.2.1 (by decide), h.2.2.2.2⟩

/-- C4 (amended): with a connection string present, configuration parsing
treats `cleanupIntervalInSeconds` as follows — an unset value succeeds and
yields the default cleanup interval (it is not a configuration error), a
value parsing to zero disables the sweeper (no interval), a value parsing to
a positive integer schedules sweeps at that period in seconds, and a
non-numeric value is a configuration error that fails initialization. -/
theorem parseMetadata_cleanup_interval (props : MetadataProps) (cs : String)
    (hcs : props.connectionString = some cs) (hcs₂ : cs ≠ "") :
    (props.cleanupIntervalInSeconds = none →
      ParseMetadata props = Except.ok
        ⟨cs, props.tableName.getD defaultTableName, some defaultCleanupInternal⟩) ∧
    (∀ str : String, props.cleanupIntervalInSeconds = some str →
      atoi str = none →
      ParseMetadata props = Except.error ConfigError.invalidCleanupInterval) ∧
    (∀ (str : String) (i : Int), props.cleanupIntervalInSeconds = some str →
      atoi str = some i → 0 < i →
      ParseMetadata props = Except.ok
        ⟨cs, props.tableName.getD defaultTableName, some i.toNat⟩) ∧
    (∀ str : String, props.cleanupIntervalInSeconds = some str →
      atoi str = some 0 →
      ParseMetadata props = Except.ok
        ⟨cs, props.tableName.getD defaultTableName, none⟩) := by
  refine ⟨?_, ?_, ?_, ?_⟩ <;> intros <;>
    simp_all [ParseMetadata, hcs, hcs₂]

theorem parseMetadata_unset_interval_succeeds :
    ParseMetadata ⟨some "foo", none, none⟩ =
      Except.ok ⟨"foo", defaultTableName, some defaultCleanupInternal⟩ := rfl

theorem parseMetadata_cleanup_interval_witness :
    ParseMetadata ⟨some "foo", none, some "42"⟩ =
      Except.ok ⟨"foo", defaultTableName, some 42⟩ ∧
    ParseMetadata ⟨some "foo", none, some "NaN"⟩ =
      Except.error ConfigError.invalidCleanupInterval ∧
    ParseMetadata ⟨some "foo", none, some "0"⟩ =
      Except.ok ⟨"foo", defaultTableName, none⟩ := by
  refine ⟨?_, ?_, ?_⟩
  · exact (parseMetadata_cleanup_interval ⟨some "foo", none, some "42"⟩ "foo" rfl
      (by decide)).2.2.1 "42" 42 rfl (by decide) (by decide)
  · exact (parseMetadata_cleanup_interval ⟨some "foo", none, some "NaN"⟩ "foo" rfl
      (by decide)).2.1 "NaN" rfl (by decide)
  · exact (parseMetadata_cleanup_interval ⟨some "foo", none, some "0"⟩ "foo" rfl
      (by decide)).2.2.2 "0" rfl (by decide)

end postgresql
